import Mathlib

/-!
Shallow embedding of the translation runners of the repository
(src/tools/translate/translate_runner.py and
src/tools/translate/translate_runner_online.py), and proofs of the
spec claims about them.

Strings are modelled as lists of characters; the Python string methods
strip, lstrip and rstrip are embedded over an ASCII model of Python
whitespace; the regular-expression and character-class tests of the two
text-node filters are embedded over the ASCII fragments of the Python
character classes.
-/

namespace TransRunner

/-! Definitions: embedding of the data model and the operations of the
two runners. -/

abbrev Str := List Char

/-- ASCII model of the Python whitespace class used by str.strip and
friends. -/
def pyIsSpace (c : Char) : Bool :=
  c = ' ' || c = '\t' || c = '\n' || c = '\r' || c = '\x0b' || c = '\x0c'

/-- Embedding of Python str.lstrip(). -/
def lstrip (s : Str) : Str := s.dropWhile pyIsSpace

/-- Embedding of Python str.rstrip(). -/
def rstrip (s : Str) : Str := (s.reverse.dropWhile pyIsSpace).reverse

/-- Embedding of Python str.strip(). -/
def strip (s : Str) : Str := rstrip (lstrip s)

/-- Embedding of the leading-whitespace computation of both runners:
original[:len(original) - len(original.lstrip())]. -/
def leadingWs (s : Str) : Str := s.take (s.length - (lstrip s).length)

/-- Embedding of the trailing-whitespace computation of both runners:
original[len(original.rstrip()):]. -/
def trailingWs (s : Str) : Str := s.drop (rstrip s).length

/-- Embedding of Python str.upper() (ASCII model), the fake translator
enabled by TRANSLATE_FAKE_UPPERCASE and the mock translator of the test. -/
def pyUpper (s : Str) : Str := s.map Char.toUpper

/-- ASCII model of the Python regex word class backslash-w: letters,
digits and underscore. -/
def pyIsWord (c : Char) : Bool := c.isAlpha || c.isDigit || c = '_'

/-- ASCII model of the regex character class of digits, whitespace and
non-word characters used by should_translate_text. -/
def inDigitSpaceNonword (c : Char) : Bool :=
  c.isDigit || pyIsSpace c || !(pyIsWord c)

/-- ASCII model of re.match on the anchored one-or-more repetition of that
class: the string is nonempty and every character is in the class. -/
def matchesDigitSpaceNonword (s : Str) : Bool :=
  !s.isEmpty && s.all inDigitSpaceNonword

/-- Embedding of should_translate_text of translate_runner.py. -/
def should_translate_text (text : Str) : Bool :=
  let cleaned := strip text
  if cleaned.isEmpty || cleaned.length < 2 then false
  else if matchesDigitSpaceNonword cleaned then false
  else true

/-- ASCII model of Python str.isdigit: nonempty and all digits. -/
def pyIsDigitStr (s : Str) : Bool :=
  !s.isEmpty && s.all Char.isDigit

/-- Embedding of the chained replace calls removing commas, periods and
spaces in collect_translatable_nodes. -/
def removeCommaPeriodSpace (s : Str) : Str :=
  s.filter (fun c => !(c = ',' || c = '.' || c = ' '))

/-- ASCII model of Python str.lower. -/
def lowerStr (s : Str) : Str := s.map Char.toLower

/-- Pattern pat starts string s. -/
def startsWithStr : Str → Str → Bool
  | [], _ => true
  | _ :: _, [] => false
  | p :: ps, c :: cs => p = c && startsWithStr ps cs

/-- Embedding of the Python substring operator: pat occurs inside s. -/
def hasSubstr (pat : Str) : Str → Bool
  | [] => startsWithStr pat []
  | c :: rest => startsWithStr pat (c :: rest) || hasSubstr pat rest

/-- Embedding of the URL and email test of collect_translatable_nodes. -/
def urlOrEmailSkip (stripped : Str) : Bool :=
  let low := lowerStr stripped
  hasSubstr ("http://".toList) low || hasSubstr ("https://".toList) low ||
    hasSubstr ("mailto:".toList) low || hasSubstr ("@".toList) low

/-- Embedding of the text-node selection of collect_translatable_nodes of
translate_runner_online.py: a text node is collected for translation iff
this returns true. -/
def online_selects (text : Str) : Bool :=
  if text.isEmpty || (!text.isEmpty && text.all pyIsSpace) then false
  else if (strip text).length < 2 then false
  else if pyIsDigitStr (removeCommaPeriodSpace (strip text)) then false
  else if urlOrEmailSkip (strip text) then false
  else true

/-- Model of a parsed HTML tree as produced by BeautifulSoup: text nodes
(NavigableString), comments, doctypes, and elements with a tag name, an
attribute list and children. -/
inductive HNode : Type where
  | text : Str → HNode
  | comment : Str → HNode
  | doctype : Str → HNode
  | element : Str → List (Str × Str) → List HNode → HNode

mutual

/-- Embedding of translate_element of translate_runner.py restricted to
the per-node-caught fragment: skip comments and doctypes, translate
substantial text nodes with the whitespace reattachment, leave a node
unchanged when its translation fails with one of the three exception
classes caught per node (RuntimeError, ValueError, AttributeError,
modelled as tr returning none), and recurse through the children of
elements. The full exception model, in which other exception classes
escape the per-node handler and abort the traversal, is
translate_element_exc below; on translators that never raise an escaping
class the two agree (translate_element_exc_no_escape). -/
def translate_element (tr : Str → Option Str) : HNode → HNode
  | HNode.text s =>
      if should_translate_text s then
        match tr (strip s) with
        | some t => HNode.text (leadingWs s ++ t ++ trailingWs s)
        | none => HNode.text s
      else HNode.text s
  | HNode.comment c => HNode.comment c
  | HNode.doctype d => HNode.doctype d
  | HNode.element n a cs => HNode.element n a (translate_children tr cs)

/-- Children traversal of translate_element. -/
def translate_children (tr : Str → Option Str) : List HNode → List HNode
  | [] => []
  | c :: cs => translate_element tr c :: translate_children tr cs

end

/-- Serialization of an attribute list inside a start tag. -/
def renderAttrs : List (Str × Str) → Str
  | [] => []
  | (k, v) :: rest => [' '] ++ k ++ ['='] ++ ['"'] ++ v ++ ['"'] ++ renderAttrs rest

mutual

/-- Serialization of the tree back to a string, modelling str(soup). -/
def render : HNode → Str
  | HNode.text s => s
  | HNode.comment c => "<!--".toList ++ c ++ "-->".toList
  | HNode.doctype d => "<!DOCTYPE ".toList ++ d ++ ">".toList
  | HNode.element n a cs =>
      ['<'] ++ n ++ renderAttrs a ++ ['>'] ++ renderList cs
        ++ "</".toList ++ n ++ ['>']

/-- Serialization of a list of sibling nodes. -/
def renderList : List HNode → Str
  | [] => []
  | c :: cs => render c ++ renderList cs

end

mutual

/-- Embedding of the collection phase of collect_translatable_nodes of the
online runner: the stripped texts of the selected nodes in document
order. -/
def collect_texts : HNode → List Str
  | HNode.text s => if online_selects s then [strip s] else []
  | HNode.comment _ => []
  | HNode.doctype _ => []
  | HNode.element _ _ cs => collect_texts_list cs

/-- Collection over a list of sibling nodes. -/
def collect_texts_list : List HNode → List Str
  | [] => []
  | c :: cs => collect_texts c ++ collect_texts_list cs

end

mutual

/-- Embedding of the apply-translations-back phase of the online runner:
walk the tree in document order consuming the list of translated strings;
each selected node becomes its leading whitespace, the next translated
string, and its trailing whitespace; when the list runs out, remaining
selected nodes stay unchanged, mirroring the bound on the index in the
update loop. -/
def splice_node : HNode → List Str → HNode × List Str
  | HNode.text s, ts =>
      if online_selects s then
        match ts with
        | t :: rest => (HNode.text (leadingWs s ++ t ++ trailingWs s), rest)
        | [] => (HNode.text s, [])
      else (HNode.text s, ts)
  | HNode.comment c, ts => (HNode.comment c, ts)
  | HNode.doctype d, ts => (HNode.doctype d, ts)
  | HNode.element n a cs, ts =>
      let r := splice_list cs ts
      (HNode.element n a r.1, r.2)

/-- Splicing over a list of sibling nodes. -/
def splice_list : List HNode → List Str → List HNode × List Str
  | [], ts => ([], ts)
  | c :: cs, ts =>
      let r1 := splice_node c ts
      let r2 := splice_list cs r1.2
      (r1.1 :: r2.1, r2.2)

end

/-- Per-text translation with the per-item fallback of the online runner:
a failed translation keeps the original text. -/
def onlineTranslateText (tr : Str → Option Str) (s : Str) : Str :=
  match tr s with
  | some t => t
  | none => s

mutual

/-- Direct structural description of one online HTML translation pass:
each selected text node is rewritten in place. Proved below to agree with
the collect-then-splice pipeline. -/
def apply_node (f : Str → Str) : HNode → HNode
  | HNode.text s =>
      if online_selects s then
        HNode.text (leadingWs s ++ f (strip s) ++ trailingWs s)
      else HNode.text s
  | HNode.comment c => HNode.comment c
  | HNode.doctype d => HNode.doctype d
  | HNode.element n a cs => HNode.element n a (apply_list f cs)

/-- Structural description over a list of sibling nodes. -/
def apply_list (f : Str → Str) : List HNode → List HNode
  | [] => []
  | c :: cs => apply_node f c :: apply_list f cs

end

/-- Embedding of translate_html_carefully of translate_runner.py. The
parse result is passed as a parameter: some tree when BeautifulSoup
parses, none when parsing raises, which triggers the plain-text fallback
on the raw HTML string; a failure of that fallback itself propagates to
the caller as none. -/
def translate_html_carefully (tr : Str → Option Str) (parsed : Option HNode)
    (html : Str) : Option Str :=
  match parsed with
  | some tree => some (render (translate_element tr tree))
  | none => tr html

/-- Embedding of translate_html_carefully of translate_runner_online.py:
collect the selected texts, translate them with the per-item fallback,
splice the results back and serialize; on a failure of the whole
mechanism fall back to plain-text translation of the raw HTML, and return
the original HTML when that also fails. -/
def online_translate_html_carefully (tr : Str → Option Str)
    (parsed : Option HNode) (html : Str) : Str :=
  match parsed with
  | some tree =>
      let ts := (collect_texts tree).map (onlineTranslateText tr)
      render (splice_node tree ts).1
  | none =>
      match tr html with
      | some t => t
      | none => html

/-- Outcome of one node translation in the full exception model of the
offline runner: success, an exception of one of the three classes caught
per node in translate_element (RuntimeError, ValueError, AttributeError),
or an exception of any other class (such as OSError), which escapes the
per-node handler. -/
inductive TrResult : Type where
  | ok : Str → TrResult
  | caught : Str → TrResult
  | escaping : Str → TrResult
deriving Repr, DecidableEq

mutual

/-- Embedding of translate_element of translate_runner.py in the full
exception model: a caught-class failure leaves the node unchanged and the
traversal continues; an escaping-class exception propagates, aborting the
processing of all remaining nodes, exactly as an exception outside
RuntimeError, ValueError and AttributeError escapes the per-node handler
of the source. -/
def translate_element_exc (tr : Str → TrResult) : HNode → Except Str HNode
  | HNode.text s =>
      if should_translate_text s then
        match tr (strip s) with
        | TrResult.ok t =>
            Except.ok (HNode.text (leadingWs s ++ t ++ trailingWs s))
        | TrResult.caught _ => Except.ok (HNode.text s)
        | TrResult.escaping e => Except.error e
      else Except.ok (HNode.text s)
  | HNode.comment c => Except.ok (HNode.comment c)
  | HNode.doctype d => Except.ok (HNode.doctype d)
  | HNode.element n a cs =>
      match translate_children_exc tr cs with
      | Except.ok cs2 => Except.ok (HNode.element n a cs2)
      | Except.error e => Except.error e

/-- Children traversal in the full exception model: children are
processed in document order and the first escaping exception aborts the
rest. -/
def translate_children_exc (tr : Str → TrResult) :
    List HNode → Except Str (List HNode)
  | [] => Except.ok []
  | c :: cs =>
      match translate_element_exc tr c with
      | Except.ok c2 =>
          match translate_children_exc tr cs with
          | Except.ok cs2 => Except.ok (c2 :: cs2)
          | Except.error e => Except.error e
      | Except.error e => Except.error e

end

/-- Collapse of the full exception model onto the per-node-caught
fragment used by translate_element: both failure kinds become none. -/
def collapseTr (tr : Str → TrResult) (s : Str) : Option Str :=
  match tr s with
  | TrResult.ok t => some t
  | TrResult.caught _ => none
  | TrResult.escaping _ => none

/-- Embedding of translate_html_carefully of translate_runner.py in the
full exception model. On a parsed tree an escaping per-node exception
propagates to the caller; such a class is outside ImportError, ValueError
and RuntimeError (ValueError and RuntimeError are already caught per
node), so the outer handler of the function does not stop it. A parse
failure (parsed none) falls back to plain translation of the raw HTML
string, inside that outer handler, where any failure of the fallback
itself propagates to the caller. -/
def translate_html_carefully_exc (tr : Str → TrResult) (parsed : Option HNode)
    (html : Str) : Except Str Str :=
  match parsed with
  | some tree =>
      match translate_element_exc tr tree with
      | Except.ok t2 => Except.ok (render t2)
      | Except.error e => Except.error e
  | none =>
      match tr html with
      | TrResult.ok t => Except.ok t
      | TrResult.caught e => Except.error e
      | TrResult.escaping e => Except.error e

/-- Embedding of the try/except around the HTML translation inside
translate_offline: an exception escaping translate_html_carefully is
caught there (RuntimeError, ValueError, AttributeError, OSError) and the
whole original text is returned; any other class reaches the handler in
main, which emits the same original text, so the visible result is the
original text either way. -/
def translate_offline_html_try (tr : Str → TrResult) (parsed : Option HNode)
    (text : Str) : Str :=
  match translate_html_carefully_exc tr parsed text with
  | Except.ok r => r
  | Except.error _ => text

/-- Translator of the C5 counterexample: raises an OSError-class
exception on the first node text and uppercases everything else. -/
def trC5 (v : Str) : TrResult :=
  if v = "hola".toList then TrResult.escaping ("OSError".toList)
  else TrResult.ok (pyUpper v)

/-- Parse tree of the C5 counterexample input. -/
def treeC5 : HNode :=
  HNode.element ("p".toList) []
    [HNode.text ("hola ".toList),
     HNode.element ("b".toList) [] [HNode.text ("mundo".toList)]]

/-- Environment of one offline invocation: the TRANSLATE_FAKE_UPPERCASE
flag, availability of the argostranslate import, the langdetect result
(none when detection raised), the installed language codes before and
after a possible auto-download, whether the auto-download succeeds, and
the translator lookup; a lookup or translation failure is modelled as
none and corresponds to the exceptions caught in translate_offline. -/
structure OfflineEnv : Type where
  fakeMode : Bool
  argosOk : Bool
  detected : Option Str
  installed : List Str
  downloadOk : Bool
  installedAfter : List Str
  getTranslation : Str → Str → Option (Str → Option Str)

/-- Embedding of translate_offline of translate_runner.py. -/
def translate_offline (env : OfflineEnv) (text : Str) (target : Str)
    (is_html : Bool) (parsed : Option HNode) (install_on_demand : Bool) : Str :=
  if env.fakeMode then
    let tr : Str → Option Str := fun s => some (pyUpper s)
    if is_html then
      match translate_html_carefully tr parsed text with
      | some r => r
      | none => text
    else pyUpper text
  else if !env.argosOk then text
  else
    let fc0 := match env.detected with
      | some d => d
      | none => "auto".toList
    let from_code := if fc0 = "af".toList then "nl".toList else fc0
    if from_code = "auto".toList || from_code = target then text
    else
      let srcFound := env.installed.contains from_code
      let tgtFound := env.installed.contains target
      if !(srcFound && tgtFound) && !install_on_demand then text
      else
        let inst := if !(srcFound && tgtFound) && env.downloadOk
          then env.installedAfter else env.installed
        if inst.contains from_code && inst.contains target then
          match env.getTranslation from_code target with
          | none => text
          | some tr =>
            if is_html then
              match translate_html_carefully tr parsed text with
              | some r => r
              | none => text
            else
              match tr text with
              | some r => r
              | none => text
        else text

/-- Outcome of one translation attempt inside the retry loop of
translate_online: success, one of the two retryable exception classes, or
one of the non-retryable exceptions handled by the outer handlers. -/
inductive AttemptOutcome : Type where
  | ok : Str → AttemptOutcome
  | tooManyRequests : Str → AttemptOutcome
  | requestError : Str → AttemptOutcome
  | notValidPayload : Str → AttemptOutcome
  | translationNotFound : Str → AttemptOutcome
  | otherError : Str → AttemptOutcome

/-- Result dictionary of translate_online. -/
structure TransResult : Type where
  translated : Str
  error : Option Str
deriving Repr, DecidableEq

/-- The max_retries constant of translate_online. -/
def maxRetries : Nat := 3

/-- The retry_delay constant of translate_online, in seconds. -/
def retryDelaySec : Nat := 1

/-- Embedding of the retry loop of translate_online together with the
outer exception handlers. The parameter i is the current attempt index,
rem the number of attempts remaining; the second component records the
backoff sleeps performed, in seconds. A retryable error on the last
attempt re-raises and is caught by the generic outer handler. -/
def attempt_loop (orig : Str) (att : Nat → AttemptOutcome) (i rem : Nat) :
    TransResult × List Nat :=
  match rem with
  | 0 => (⟨orig, none⟩, [])
  | Nat.succ rem2 =>
    match att i with
    | AttemptOutcome.ok s => (⟨s, none⟩, [])
    | AttemptOutcome.tooManyRequests m =>
        if rem2 > 0 then
          let r := attempt_loop orig att (i + 1) rem2
          (r.1, retryDelaySec * 2 ^ i :: r.2)
        else
          (⟨orig, some ("Translation failed: TooManyRequests: ".toList ++ m)⟩, [])
    | AttemptOutcome.requestError m =>
        if rem2 > 0 then
          let r := attempt_loop orig att (i + 1) rem2
          (r.1, retryDelaySec * 2 ^ i :: r.2)
        else
          (⟨orig, some ("Translation failed: RequestError: ".toList ++ m)⟩, [])
    | AttemptOutcome.notValidPayload m =>
        (⟨orig, some ("Invalid input for translation: ".toList ++ m)⟩, [])
    | AttemptOutcome.translationNotFound m =>
        (⟨orig, some ("Translation not found: ".toList ++ m)⟩, [])
    | AttemptOutcome.otherError m =>
        (⟨orig, some ("Translation failed: ".toList ++ m)⟩, [])

/-- Environment of one online invocation: availability of the
deep-translator import, the detect_language result (a code, or the string
auto on detection failure), whether the provider is supported and its
constructor succeeded, the ValueError message when it is not, and the
outcome of each translation attempt. -/
structure OnlineEnv : Type where
  libOk : Bool
  detected : Str
  providerOk : Bool
  providerErrMsg : Str
  att : Nat → AttemptOutcome

/-- Embedding of translate_online of translate_runner_online.py, with the
list of backoff sleeps performed as the second component. -/
def translate_online_run (env : OnlineEnv) (text : Str) (target : Str) :
    TransResult × List Nat :=
  if !env.libOk then
    (⟨text, some ("Required library not installed".toList)⟩, [])
  else if strip text = [] then (⟨text, none⟩, [])
  else if env.detected = target then (⟨text, none⟩, [])
  else if !env.providerOk then (⟨text, some env.providerErrMsg⟩, [])
  else attempt_loop text env.att 0 maxRetries

/-- Embedding of translate_online of translate_runner_online.py. -/
def translate_online (env : OnlineEnv) (text : Str) (target : Str) :
    TransResult :=
  (translate_online_run env text target).1

/-- JSON value written by the runners: only strings occur. -/
inductive JVal : Type where
  | str : Str → JVal
deriving Repr, DecidableEq

/-- JSON object written to standard output, as an ordered key-value list. -/
abbrev JObj := List (Str × JVal)

/-- Serialization of the result dictionaries built in translate_online. -/
def jsonOfResult (r : TransResult) : JObj :=
  match r.error with
  | some e =>
      [("error".toList, JVal.str e), ("translated".toList, JVal.str r.translated)]
  | none => [("translated".toList, JVal.str r.translated)]

/-- Embedding of main of translate_runner_online.py: the JSON object
printed and the returned exit code. -/
def main_online (env : OnlineEnv) (input : Str) (target : Str) : JObj × Nat :=
  if input = [] then
    ([("error".toList, JVal.str ("No input provided".toList)),
      ("translated".toList, JVal.str [])], 1)
  else
    (jsonOfResult (translate_online env input target), 0)

/-- Embedding of main of translate_runner.py: the JSON object printed and
the returned exit code. The crashes flag models an unexpected exception
escaping translate_offline, which main catches, substituting the original
input. -/
def main_offline (env : OfflineEnv) (data : Str) (target : Str)
    (is_html : Bool) (parsed : Option HNode) (install_on_demand : Bool)
    (crashes : Bool) : JObj × Nat :=
  let out := if crashes then data
    else translate_offline env data target is_html parsed install_on_demand
  ([("translated".toList, JVal.str out)], 0)

/-- One non-text item of the tree. -/
inductive FrameItem : Type where
  | tag : Str → List (Str × Str) → FrameItem
  | commentF : Str → FrameItem
  | doctypeF : Str → FrameItem
deriving Repr, DecidableEq

mutual

/-- All non-text items of a tree in document order. -/
def frame : HNode → List FrameItem
  | HNode.text _ => []
  | HNode.comment c => [FrameItem.commentF c]
  | HNode.doctype d => [FrameItem.doctypeF d]
  | HNode.element n a cs => FrameItem.tag n a :: frameList cs

/-- All non-text items of a list of sibling nodes. -/
def frameList : List HNode → List FrameItem
  | [] => []
  | c :: cs => frame c ++ frameList cs

end

/-- Offline environment for the C1 counterexample: Afrikaans detected,
Dutch and Afrikaans models installed, uppercasing translator. -/
def envC1 : OfflineEnv :=
  { fakeMode := false, argosOk := true, detected := some ("af".toList),
    installed := ["nl".toList, "af".toList], downloadOk := false,
    installedAfter := [],
    getTranslation := fun _ _ => some (fun s => some (pyUpper s)) }

/-- Online environment for the C6 counterexample and witness. -/
def envC6 : OnlineEnv :=
  { libOk := true, detected := "en".toList, providerOk := true,
    providerErrMsg := [], att := fun _ => AttemptOutcome.ok [] }

/-- Parse tree of the HTML fragment of the C9 test. -/
def tree9 : HNode :=
  HNode.element ("p".toList) []
    [HNode.text ("hola ".toList),
     HNode.element ("b".toList) [] [HNode.text ("mundo".toList)],
     HNode.text ("!".toList)]

/-- Offline environment of the C9 test: Spanish detected, Spanish and
English models installed, uppercasing mock translator. -/
def env9 : OfflineEnv :=
  { fakeMode := false, argosOk := true, detected := some ("es".toList),
    installed := ["es".toList, "en".toList], downloadOk := false,
    installedAfter := [],
    getTranslation := fun f t =>
      if f = "es".toList && t = "en".toList
      then some (fun s => some (pyUpper s)) else none }

/-! Theorems: supporting lemmas, then the claim theorems with their
counterexamples and witnesses. -/

theorem takeWhile_append_left (p : Char → Bool) (l₁ l₂ : Str)
    (h : l₁.dropWhile p ≠ []) :
    (l₁ ++ l₂).takeWhile p = l₁.takeWhile p := by
  induction l₁ with
  | nil => simp [List.dropWhile] at h
  | cons c cs ih =>
    by_cases hc : p c
    · have h2 : cs.dropWhile p ≠ [] := by
        simpa [List.dropWhile_cons, hc] using h
      simp [List.takeWhile_cons, hc, ih h2]
    · simp [List.takeWhile_cons, hc]

theorem dropWhile_append_left (p : Char → Bool) (l₁ l₂ : Str)
    (h : l₁.dropWhile p ≠ []) :
    (l₁ ++ l₂).dropWhile p = l₁.dropWhile p ++ l₂ := by
  induction l₁ with
  | nil => simp [List.dropWhile] at h
  | cons c cs ih =>
    by_cases hc : p c
    · have h2 : cs.dropWhile p ≠ [] := by
        simpa [List.dropWhile_cons, hc] using h
      simp [List.dropWhile_cons, hc, ih h2]
    · simp [List.dropWhile_cons, hc]

/-- The leading-whitespace slice computed by the runners equals the
maximal whitespace prefix. -/
theorem leadingWs_eq_takeWhile (s : Str) :
    leadingWs s = s.takeWhile pyIsSpace := by
  have hsplit := List.takeWhile_append_dropWhile pyIsSpace s
  have hlen : s.length
      = (s.takeWhile pyIsSpace).length + (s.dropWhile pyIsSpace).length := by
    conv_lhs => rw [← hsplit]
    rw [List.length_append]
  have hn : s.length - (s.dropWhile pyIsSpace).length
      = (s.takeWhile pyIsSpace).length := by omega
  have htake := @List.take_left' Char (s.takeWhile pyIsSpace)
    (s.dropWhile pyIsSpace) ((s.takeWhile pyIsSpace).length) rfl
  rw [hsplit] at htake
  unfold leadingWs lstrip
  rw [hn, htake]

/-- The trailing-whitespace slice computed by the runners equals the
reverse of the maximal whitespace prefix of the reverse. -/
theorem trailingWs_eq (s : Str) :
    trailingWs s = (s.reverse.takeWhile pyIsSpace).reverse := by
  have hs : s = (s.reverse.dropWhile pyIsSpace).reverse
      ++ (s.reverse.takeWhile pyIsSpace).reverse := by
    conv_rhs => rw [← List.reverse_append, List.takeWhile_append_dropWhile,
      List.reverse_reverse]
  have hdrop := @List.drop_left' Char ((s.reverse.dropWhile pyIsSpace).reverse)
    ((s.reverse.takeWhile pyIsSpace).reverse)
    (((s.reverse.dropWhile pyIsSpace).reverse).length) rfl
  rw [← hs] at hdrop
  unfold trailingWs rstrip
  exact hdrop

/-- Splitting lemma: rstrip plus the trailing whitespace rebuilds the
string. -/
theorem rstrip_append_trailingWs (s : Str) :
    rstrip s ++ trailingWs s = s := by
  rw [trailingWs_eq]
  unfold rstrip
  rw [← List.reverse_append, List.takeWhile_append_dropWhile, List.reverse_reverse]

/-- Splitting lemma: the leading whitespace plus lstrip rebuilds the
string. -/
theorem leadingWs_append_lstrip (s : Str) :
    leadingWs s ++ lstrip s = s := by
  rw [leadingWs_eq_takeWhile]
  unfold lstrip
  exact List.takeWhile_append_dropWhile pyIsSpace s

/-- When the stripped core is nonempty, the string decomposes exactly as
leading whitespace, stripped core, trailing whitespace. -/
theorem strip_decomposition (s : Str) (h : strip s ≠ []) :
    leadingWs s ++ strip s ++ trailingWs s = s := by
  have hu : lstrip s ≠ [] := by
    intro he
    apply h
    simp [strip, he, rstrip, List.dropWhile]
  have hdrop : (lstrip s).reverse.dropWhile pyIsSpace ≠ [] := by
    intro he
    apply h
    simp [strip, rstrip, he]
  have hrevs : s.reverse = (lstrip s).reverse ++ (leadingWs s).reverse := by
    conv_lhs => rw [← leadingWs_append_lstrip s]
    rw [List.reverse_append]
  have htw : trailingWs s = trailingWs (lstrip s) := by
    rw [trailingWs_eq, trailingWs_eq, hrevs,
      takeWhile_append_left _ _ _ hdrop]
  calc leadingWs s ++ strip s ++ trailingWs s
      = leadingWs s ++ (rstrip (lstrip s) ++ trailingWs (lstrip s)) := by
        rw [htw, List.append_assoc]; rfl
    _ = leadingWs s ++ lstrip s := by rw [rstrip_append_trailingWs]
    _ = s := leadingWs_append_lstrip s

/-- Every character of the leading-whitespace slice is whitespace. -/
theorem leadingWs_all_space (s : Str) : (leadingWs s).all pyIsSpace := by
  rw [leadingWs_eq_takeWhile, List.all_eq_true]
  intro c hc
  exact List.mem_takeWhile_imp hc

/-- Every character of the trailing-whitespace slice is whitespace. -/
theorem trailingWs_all_space (s : Str) : (trailingWs s).all pyIsSpace := by
  rw [trailingWs_eq, List.all_eq_true]
  intro c hc
  rw [List.mem_reverse] at hc
  exact List.mem_takeWhile_imp hc

mutual

theorem frame_translate_element (tr : Str → Option Str) (n : HNode) :
    frame (translate_element tr n) = frame n := by
  cases n with
  | text s =>
      by_cases h : should_translate_text s
      · simp only [translate_element, h, if_true]
        cases tr (strip s) <;> rfl
      · simp [translate_element, h]
  | comment c => rfl
  | doctype d => rfl
  | element nm a cs =>
      simp only [translate_element, frame]
      rw [frame_translate_children tr cs]

theorem frame_translate_children (tr : Str → Option Str) (l : List HNode) :
    frameList (translate_children tr l) = frameList l := by
  cases l with
  | nil => rfl
  | cons c cs =>
      simp only [translate_children, frameList]
      rw [frame_translate_element tr c, frame_translate_children tr cs]

end

mutual

theorem frame_splice_node (n : HNode) (ts : List Str) :
    frame (splice_node n ts).1 = frame n := by
  cases n with
  | text s =>
      by_cases h : online_selects s
      · simp only [splice_node, h, if_true]
        cases ts <;> rfl
      · simp [splice_node, h]
  | comment c => rfl
  | doctype d => rfl
  | element nm a cs =>
      simp only [splice_node, frame]
      rw [frame_splice_list cs ts]

theorem frame_splice_list (l : List HNode) (ts : List Str) :
    frameList (splice_list l ts).1 = frameList l := by
  cases l with
  | nil => rfl
  | cons c cs =>
      simp only [splice_list, frameList]
      rw [frame_splice_node c ts, frame_splice_list cs]

end

mutual

theorem frame_apply_node (f : Str → Str) (n : HNode) :
    frame (apply_node f n) = frame n := by
  cases n with
  | text s =>
      by_cases h : online_selects s
      · simp only [apply_node, h, if_true]
        rfl
      · simp [apply_node, h]
  | comment c => rfl
  | doctype d => rfl
  | element nm a cs =>
      simp only [apply_node, frame]
      rw [frame_apply_list f cs]

theorem frame_apply_list (f : Str → Str) (l : List HNode) :
    frameList (apply_list f l) = frameList l := by
  cases l with
  | nil => rfl
  | cons c cs =>
      simp only [apply_list, frameList]
      rw [frame_apply_node f c, frame_apply_list f cs]

end

mutual

theorem splice_node_spec (f : Str → Str) (n : HNode) (ts : List Str) :
    splice_node n ((collect_texts n).map f ++ ts) = (apply_node f n, ts) := by
  cases n with
  | text s =>
      by_cases h : online_selects s
      · simp only [collect_texts, h, if_true, List.map_cons, List.map_nil,
          List.cons_append, List.nil_append, splice_node, apply_node]
      · simp [collect_texts, h, splice_node, apply_node]
  | comment c => rfl
  | doctype d => rfl
  | element nm a cs =>
      simp only [collect_texts, splice_node, apply_node]
      rw [splice_list_spec f cs ts]

theorem splice_list_spec (f : Str → Str) (l : List HNode) (ts : List Str) :
    splice_list l ((collect_texts_list l).map f ++ ts) = (apply_list f l, ts) := by
  cases l with
  | nil => rfl
  | cons c cs =>
      simp only [collect_texts_list, splice_list, apply_list, List.map_append,
        List.append_assoc]
      rw [splice_node_spec f c ((collect_texts_list cs).map f ++ ts),
        splice_list_spec f cs ts]

end

/-- The online HTML pass on a parsed tree equals its direct structural
description. -/
theorem online_html_eq_apply (tr : Str → Option Str) (tree : HNode)
    (html : Str) :
    online_translate_html_carefully tr (some tree) html
      = render (apply_node (onlineTranslateText tr) tree) := by
  have h := splice_node_spec (onlineTranslateText tr) tree []
  rw [List.append_nil] at h
  simp only [online_translate_html_carefully, h]

/-- Translation of siblings acts on each node independently. -/
theorem translate_children_append (tr : Str → Option Str)
    (l₁ l₂ : List HNode) :
    translate_children tr (l₁ ++ l₂)
      = translate_children tr l₁ ++ translate_children tr l₂ := by
  induction l₁ with
  | nil => rfl
  | cons c cs ih =>
      simp only [List.cons_append, translate_children, ih, List.append_eq]

/-- In the full exception model, the traversal of concatenated sibling
lists processes the first list, then the second, aborting at the first
escaping exception. -/
theorem translate_children_exc_append (tr : Str → TrResult)
    (l₁ l₂ : List HNode) :
    translate_children_exc tr (l₁ ++ l₂)
      = (match translate_children_exc tr l₁ with
          | Except.ok r1 =>
              (match translate_children_exc tr l₂ with
                | Except.ok r2 => Except.ok (r1 ++ r2)
                | Except.error e => Except.error e)
          | Except.error e => Except.error e) := by
  induction l₁ with
  | nil =>
      simp only [List.nil_append, translate_children_exc]
      cases translate_children_exc tr l₂ <;> rfl
  | cons c cs ih =>
      simp only [List.cons_append, translate_children_exc, List.append_eq, ih]
      cases translate_element_exc tr c with
      | error e => rfl
      | ok c2 =>
          cases translate_children_exc tr cs with
          | error e => rfl
          | ok cs2 =>
              cases translate_children_exc tr l₂ <;> rfl

mutual

theorem translate_element_exc_no_escape (tr : Str → TrResult)
    (hne : ∀ v e, tr v ≠ TrResult.escaping e) (n : HNode) :
    translate_element_exc tr n
      = Except.ok (translate_element (collapseTr tr) n) := by
  cases n with
  | text s =>
      by_cases hs : should_translate_text s
      · simp only [translate_element_exc, translate_element, hs, if_true]
        cases htr : tr (strip s) with
        | ok t => simp [collapseTr, htr]
        | caught e => simp [collapseTr, htr]
        | escaping e => exact absurd htr (hne (strip s) e)
      · simp [translate_element_exc, translate_element, hs]
  | comment c => rfl
  | doctype d => rfl
  | element nm a cs =>
      simp only [translate_element_exc, translate_element,
        translate_children_exc_no_escape tr hne cs]

theorem translate_children_exc_no_escape (tr : Str → TrResult)
    (hne : ∀ v e, tr v ≠ TrResult.escaping e) (l : List HNode) :
    translate_children_exc tr l
      = Except.ok (translate_children (collapseTr tr) l) := by
  cases l with
  | nil => rfl
  | cons c cs =>
      simp only [translate_children_exc, translate_children,
        translate_element_exc_no_escape tr hne c,
        translate_children_exc_no_escape tr hne cs]

end

/-- An error result of the retry loop carries the original text. -/
theorem attempt_loop_error_keeps_original (orig : Str)
    (att : Nat → AttemptOutcome) :
    ∀ rem i e, ((attempt_loop orig att i rem).1.error = some e)
      → (attempt_loop orig att i rem).1.translated = orig := by
  intro rem
  induction rem with
  | zero => intro i e h; rfl
  | succ rem2 ih =>
      intro i e h
      rw [attempt_loop] at h ⊢
      split at h
      · simp at h
      · by_cases hrem : rem2 > 0
        · rw [if_pos hrem] at h ⊢
          exact ih (i + 1) e h
        · rw [if_neg hrem] at h ⊢
      · by_cases hrem : rem2 > 0
        · rw [if_pos hrem] at h ⊢
          exact ih (i + 1) e h
        · rw [if_neg hrem] at h ⊢
      · rfl
      · rfl
      · rfl

/-- The retry loop inspects only the attempts whose index lies below
i plus rem. -/
theorem attempt_loop_congr (orig : Str) (att att2 : Nat → AttemptOutcome) :
    ∀ rem i, (∀ j, i ≤ j → j < i + rem → att j = att2 j)
      → attempt_loop orig att i rem = attempt_loop orig att2 i rem := by
  intro rem
  induction rem with
  | zero => intro i _; rfl
  | succ rem2 ih =>
      intro i hagree
      have h0 : att i = att2 i :=
        hagree i (Nat.le_refl i) (by omega)
      have hrest : ∀ j, i + 1 ≤ j → j < (i + 1) + rem2 → att j = att2 j := by
        intro j h1 h2
        exact hagree j (by omega) (by omega)
      rw [attempt_loop, attempt_loop, ← h0]
      split
      · rfl
      · by_cases hrem : rem2 > 0
        · rw [if_pos hrem, if_pos hrem, ih (i + 1) hrest]
        · rw [if_neg hrem, if_neg hrem]
      · by_cases hrem : rem2 > 0
        · rw [if_pos hrem, if_pos hrem, ih (i + 1) hrest]
        · rw [if_neg hrem, if_neg hrem]
      · rfl
      · rfl
      · rfl

/-- A letter is not a digit. -/
theorem isAlpha_isDigit_false (c : Char) (h : c.isAlpha = true) :
    c.isDigit = false := by
  have hval : 65 ≤ c.val.toNat ∧ c.val.toNat ≤ 90
      ∨ 97 ≤ c.val.toNat ∧ c.val.toNat ≤ 122 := by
    simp only [Char.isAlpha, Char.isUpper, Char.isLower, Bool.or_eq_true,
      Bool.and_eq_true, decide_eq_true_eq, ge_iff_le] at h
    rcases h with ⟨h1, h2⟩ | ⟨h1, h2⟩
    · exact Or.inl ⟨by exact_mod_cast h1, by exact_mod_cast h2⟩
    · exact Or.inr ⟨by exact_mod_cast h1, by exact_mod_cast h2⟩
  rw [Char.isDigit]
  by_contra hb
  rw [Bool.not_eq_false, Bool.and_eq_true, decide_eq_true_eq,
    decide_eq_true_eq, ge_iff_le] at hb
  obtain ⟨h1, h2⟩ := hb
  have d1 : 48 ≤ c.val.toNat := by exact_mod_cast h1
  have d2 : c.val.toNat ≤ 57 := by exact_mod_cast h2
  omega

/-- A word character is not whitespace. -/
theorem word_not_space (c : Char) (h : pyIsWord c = true) :
    pyIsSpace c = false := by
  cases hs : pyIsSpace c
  · rfl
  · exfalso
    unfold pyIsSpace at hs
    simp only [Bool.or_eq_true, decide_eq_true_eq] at hs
    rcases hs with ((((h1 | h1) | h1) | h1) | h1) | h1 <;> rw [h1] at h <;>
      exact absurd h (by decide)

/-- Membership in the digit-space-nonword class fails exactly for letters
and the underscore. -/
theorem not_inDSN_iff (c : Char) :
    inDigitSpaceNonword c = false ↔ (c.isAlpha || c = '_') = true := by
  constructor
  · intro h
    unfold inDigitSpaceNonword at h
    simp only [Bool.or_eq_false_iff] at h
    obtain ⟨⟨hd, _⟩, hw⟩ := h
    have hw2 : pyIsWord c = true := by
      cases hcw : pyIsWord c
      · rw [hcw] at hw
        exact absurd hw (by decide)
      · rfl
    unfold pyIsWord at hw2
    simp only [Bool.or_eq_true] at hw2 ⊢
    rcases hw2 with (ha | hd2) | hu
    · exact Or.inl ha
    · rw [hd2] at hd; cases hd
    · exact Or.inr hu
  · intro h
    rcases Bool.or_eq_true_iff.mp h with ha | hu
    · have hword : pyIsWord c = true := by
        unfold pyIsWord
        rw [ha]
        rfl
      unfold inDigitSpaceNonword
      rw [isAlpha_isDigit_false c ha, word_not_space c hword, hword]
      rfl
    · have hc : c = '_' := of_decide_eq_true hu
      subst hc
      decide

/-- A fully-whitespace string strips to the empty string. -/
theorem strip_nil_of_all_space (s : Str) (h : s.all pyIsSpace = true) :
    strip s = [] := by
  have hdrop : s.dropWhile pyIsSpace = [] := by
    rw [List.dropWhile_eq_nil_iff]
    intro x hx
    exact (List.all_eq_true.mp h) x hx
  unfold strip lstrip rstrip
  rw [hdrop]
  rfl

/-- Characterization of the offline filter: a text node passes exactly
when its stripped core has at least two characters and contains a letter
or an underscore. -/
theorem should_translate_text_iff (s : Str) :
    should_translate_text s = true
      ↔ 2 ≤ (strip s).length
          ∧ ∃ c ∈ strip s, (c.isAlpha || c = '_') = true := by
  unfold should_translate_text
  dsimp only
  split
  next h1 =>
    constructor
    · intro h; cases h
    · rintro ⟨hlen, _⟩
      exfalso
      simp only [Bool.or_eq_true, List.isEmpty_iff, decide_eq_true_eq] at h1
      rcases h1 with he | hl
      · rw [he] at hlen; simp at hlen
      · omega
  next h1 =>
    simp only [Bool.or_eq_true, List.isEmpty_iff, decide_eq_true_eq,
      not_or] at h1
    obtain ⟨hne, hnl⟩ := h1
    have hlen : 2 ≤ (strip s).length := by omega
    split
    next h2 =>
      constructor
      · intro h; cases h
      · rintro ⟨_, c, hc, hcw⟩
        exfalso
        unfold matchesDigitSpaceNonword at h2
        rw [Bool.and_eq_true] at h2
        obtain ⟨_, hall⟩ := h2
        have hmem := (List.all_eq_true.mp hall) c hc
        rw [(not_inDSN_iff c).mpr hcw] at hmem
        cases hmem
    next h2 =>
      constructor
      · intro _
        refine ⟨hlen, ?_⟩
        have h2f : matchesDigitSpaceNonword (strip s) = false :=
          Bool.not_eq_true _ ▸ eq_false_of_ne_true h2
        unfold matchesDigitSpaceNonword at h2f
        rcases Bool.and_eq_false_iff.mp h2f with hb | hall
        · exfalso
          have hbe : (strip s).isEmpty = true := by
            cases hx : (strip s).isEmpty
            · rw [hx] at hb
              exact absurd hb (by decide)
            · rfl
          rw [List.isEmpty_iff] at hbe
          exact hne hbe
        · rcases List.all_eq_false.mp hall with ⟨c, hc, hcf⟩
          refine ⟨c, hc, (not_inDSN_iff c).mp ?_⟩
          exact eq_false_of_ne_true hcf
      · intro _; rfl

/-- Characterization of the online filter: a text node is collected
exactly when its stripped core has at least two characters, is not purely
numeric after removing commas, periods and spaces, and carries none of
the URL or email markers. -/
theorem online_selects_iff (s : Str) :
    online_selects s = true
      ↔ 2 ≤ (strip s).length
          ∧ pyIsDigitStr (removeCommaPeriodSpace (strip s)) = false
          ∧ urlOrEmailSkip (strip s) = false := by
  unfold online_selects
  split
  next h1 =>
    have hstrip : strip s = [] := by
      rcases Bool.or_eq_true_iff.mp h1 with he | hsp
      · rw [List.isEmpty_iff] at he
        rw [he]
        rfl
      · rw [Bool.and_eq_true] at hsp
        exact strip_nil_of_all_space s hsp.2
    constructor
    · intro h; cases h
    · rintro ⟨hlen, _⟩
      rw [hstrip] at hlen
      simp at hlen
  next _ =>
    split
    next h2 =>
      constructor
      · intro h; cases h
      · rintro ⟨hlen, _⟩; omega
    next h2 =>
      have hlen : 2 ≤ (strip s).length := by omega
      split
      next h3 =>
        constructor
        · intro h; cases h
        · rintro ⟨_, hdig, _⟩
          rw [h3] at hdig
          cases hdig
      next h3 =>
        have h3f : pyIsDigitStr (removeCommaPeriodSpace (strip s)) = false := by
          cases hx : pyIsDigitStr (removeCommaPeriodSpace (strip s))
          · rfl
          · exact absurd hx h3
        split
        next h4 =>
          constructor
          · intro h; cases h
          · rintro ⟨_, _, hurl⟩
            rw [h4] at hurl
            cases hurl
        next h4 =>
          have h4f : urlOrEmailSkip (strip s) = false := by
            cases hx : urlOrEmailSkip (strip s)
            · rfl
            · exact absurd hx h4
          exact ⟨fun _ => ⟨hlen, h3f, h4f⟩, fun _ => rfl⟩

/-- A result of translate_online either keeps the original text or
carries no error. -/
theorem translate_online_keeps_original_or_ok (env : OnlineEnv)
    (text target : Str) :
    (translate_online env text target).translated = text
      ∨ (translate_online env text target).error = none := by
  unfold translate_online translate_online_run
  split
  · exact Or.inl rfl
  · split
    · exact Or.inl rfl
    · split
      · exact Or.inl rfl
      · split
        · exact Or.inl rfl
        · cases he : (attempt_loop text env.att 0 maxRetries).1.error with
          | none => exact Or.inr rfl
          | some e =>
              exact Or.inl
                (attempt_loop_error_keeps_original text env.att maxRetries 0 e he)

/-- Claim C1 counterexample: with detected language af and target af, the
offline runner remaps the source code to nl before the equality check, so
the translator is invoked and the input is not returned unchanged. -/
theorem C1_counterexample :
    translate_offline envC1 ("hi".toList) ("af".toList) false none false
        = "HI".toList
      ∧ "HI".toList ≠ "hi".toList :=
  ⟨rfl, by decide⟩

/-- Claim C1 (amended): when the detected source equals the target, the
online runner returns the input unchanged whatever the attempts would do,
and the offline runner returns the input unchanged whatever the
translator lookup would return whenever the af-to-nl remap of the
detected code equals the target; in particular this covers every detected
code equal to the target other than af. -/
theorem C1_amended_same_language_unchanged
    (envO : OfflineEnv) (envN : OnlineEnv) (text target : Str)
    (is_html : Bool) (parsed : Option HNode) (iod : Bool) (d : Str)
    (hfake : envO.fakeMode = false)
    (hdet : envO.detected = some d)
    (hmap : (if d = "af".toList then "nl".toList else d) = target)
    (hdet2 : envN.detected = target)
    (hlib : envN.libOk = true) :
    (∀ g, translate_offline { envO with getTranslation := g } text target
        is_html parsed iod = text)
      ∧ (∀ att2, translate_online { envN with att := att2 } text target
          = ⟨text, none⟩) := by
  constructor
  · intro g
    unfold translate_offline
    simp only [hfake, hdet, hmap]
    simp
  · intro att2
    unfold translate_online translate_online_run
    simp only [hlib, hdet2]
    by_cases hs : strip text = []
    · simp [hs]
    · simp [hs]

/-- Claim C1 witness at a concrete input. -/
theorem C1_amended_same_language_unchanged_witness :
    translate_offline
        { fakeMode := false, argosOk := true, detected := some ("es".toList),
          installed := [], downloadOk := false, installedAfter := [],
          getTranslation := fun _ _ => none }
        ("hola".toList) ("es".toList) false none true = "hola".toList := by
  have h := C1_amended_same_language_unchanged
    { fakeMode := false, argosOk := true, detected := some ("es".toList),
      installed := [], downloadOk := false, installedAfter := [],
      getTranslation := fun _ _ => none }
    { libOk := true, detected := "es".toList, providerOk := true,
      providerErrMsg := [], att := fun _ => AttemptOutcome.ok [] }
    ("hola".toList) ("es".toList) false none true ("es".toList)
    rfl rfl (by decide) rfl rfl
  exact h.1 (fun _ _ => none)

/-- Claim C2: for a text node selected by either runner, the output node
is the original leading whitespace, the translated stripped core, and the
original trailing whitespace; the three pieces reassemble the original
text and the outer pieces are genuinely whitespace. -/
theorem C2_whitespace_preservation
    (s t : Str) (tr : Str → Option Str) (ts : List Str)
    (hsel : should_translate_text s = true ∨ online_selects s = true) :
    (should_translate_text s = true → tr (strip s) = some t →
        translate_element tr (HNode.text s)
          = HNode.text (leadingWs s ++ t ++ trailingWs s))
      ∧ (online_selects s = true →
          splice_node (HNode.text s) (t :: ts)
            = (HNode.text (leadingWs s ++ t ++ trailingWs s), ts))
      ∧ leadingWs s ++ strip s ++ trailingWs s = s
      ∧ (leadingWs s).all pyIsSpace = true
      ∧ (trailingWs s).all pyIsSpace = true := by
  have hne : strip s ≠ [] := by
    rcases hsel with h | h
    · have hh := (should_translate_text_iff s).mp h
      intro he
      rw [he] at hh
      simp at hh
    · have hh := (online_selects_iff s).mp h
      intro he
      rw [he] at hh
      simp at hh
  refine ⟨?_, ?_, strip_decomposition s hne, leadingWs_all_space s,
    trailingWs_all_space s⟩
  · intro h htr
    simp [translate_element, h, htr]
  · intro h
    simp [splice_node, h]

/-- Claim C2 witness at a concrete input. -/
theorem C2_whitespace_preservation_witness :
    translate_element (fun _ => some ("XY".toList))
        (HNode.text (" ab ".toList))
      = HNode.text (" XY ".toList) := by
  have h := C2_whitespace_preservation (" ab ".toList) ("XY".toList)
    (fun _ => some ("XY".toList)) [] (Or.inl (by decide))
  have h2 := h.1 (by decide) rfl
  rw [h2]
  rfl

/-- Claim C3 counterexample: the offline filter sends a URL to the
translator although the claim requires URLs to be excluded; the online
filter excludes the same text, so the two runners disagree and no single
filter with a URL exclusion describes both. -/
theorem C3_counterexample :
    should_translate_text ("http://example.com".toList) = true
      ∧ urlOrEmailSkip (strip ("http://example.com".toList)) = true
      ∧ online_selects ("http://example.com".toList) = false :=
  ⟨by decide, by decide, by decide⟩

/-- Claim C3 (amended): the offline runner sends a node exactly when its
stripped core has length at least two and contains a letter or an
underscore, with no URL or email exclusion; the online runner sends a
node exactly when its stripped core has length at least two, is not
purely numeric after removing commas, periods and spaces, and carries
none of the URL or email markers; a node failing the respective filter is
left unchanged. -/
theorem C3_amended_filters (s : Str) (tr : Str → Option Str) (ts : List Str) :
    (should_translate_text s = true
        ↔ 2 ≤ (strip s).length
            ∧ ∃ c ∈ strip s, (c.isAlpha || c = '_') = true)
      ∧ (online_selects s = true
          ↔ 2 ≤ (strip s).length
              ∧ pyIsDigitStr (removeCommaPeriodSpace (strip s)) = false
              ∧ urlOrEmailSkip (strip s) = false)
      ∧ (should_translate_text s = false →
          translate_element tr (HNode.text s) = HNode.text s)
      ∧ (online_selects s = false →
          collect_texts (HNode.text s) = []
            ∧ splice_node (HNode.text s) ts = (HNode.text s, ts)) := by
  refine ⟨should_translate_text_iff s, online_selects_iff s, ?_, ?_⟩
  · intro h
    simp [translate_element, h]
  · intro h
    exact ⟨by simp [collect_texts, h], by simp [splice_node, h]⟩

/-- Claim C3 witness at a concrete input. -/
theorem C3_amended_filters_witness :
    translate_element (fun v => some (pyUpper v)) (HNode.text ("42".toList))
        = HNode.text ("42".toList)
      ∧ collect_texts (HNode.text ("42".toList)) = [] := by
  have h := C3_amended_filters ("42".toList) (fun v => some (pyUpper v)) []
  exact ⟨h.2.2.1 (by decide), (h.2.2.2 (by decide)).1⟩

/-- Claim C4: on a parsed tree, HTML translation changes nothing but text
nodes: the offline pipeline serializes the translated tree whose frame of
tag names, attribute lists, comments and doctypes equals that of the
input, and the online collect-splice pipeline equals its direct
structural description, which preserves the same frame. -/
theorem C4_frame_preservation (tr : Str → Option Str) (tree : HNode)
    (html : Str) :
    translate_html_carefully tr (some tree) html
        = some (render (translate_element tr tree))
      ∧ frame (translate_element tr tree) = frame tree
      ∧ online_translate_html_carefully tr (some tree) html
          = render (apply_node (onlineTranslateText tr) tree)
      ∧ frame (apply_node (onlineTranslateText tr) tree) = frame tree :=
  ⟨rfl, frame_translate_element tr tree, online_html_eq_apply tr tree html,
    frame_apply_node (onlineTranslateText tr) tree⟩

/-- Claim C5 counterexample: an OSError-class exception while translating
the first text node escapes the per-node handler of the offline runner,
aborts the traversal, and makes the runner return the entire original
text, although the sibling node has a working translation; the per-node
policy claimed for every exception would have produced the output with
the sibling uppercased. -/
theorem C5_counterexample :
    trC5 ("mundo".toList) = TrResult.ok ("MUNDO".toList)
      ∧ translate_element_exc trC5 treeC5
          = Except.error ("OSError".toList)
      ∧ translate_offline_html_try trC5 (some treeC5)
          ("<p>hola <b>mundo</b></p>".toList)
        = "<p>hola <b>mundo</b></p>".toList
      ∧ "<p>hola <b>mundo</b></p>".toList
          ≠ "<p>hola <b>MUNDO</b></p>".toList :=
  ⟨rfl, rfl, rfl, by decide⟩

/-- Claim C5 (amended): in the online runner any per-node failure keeps
the node and the whole-mechanism fallback translates the raw HTML string,
returning the original on a second failure; in the offline runner the
keep-the-node-and-continue policy holds exactly for the caught exception
classes (RuntimeError, ValueError, AttributeError): a caught failure
keeps the node with the traversal continuing through the siblings, and on
a translator that never raises outside those classes the full model
agrees with the per-node policy, while an escaping class at a selected
node aborts the traversal, skips the remaining nodes, and the runner
returns the entire original text; the raw-string fallback of the offline
runner applies to parse failures. -/
theorem C5_amended_failure_policy
    (tr : Str → Option Str) (trE : Str → TrResult) (s html m : Str)
    (n : HNode) (pre post : List HNode) :
    (trE (strip s) = TrResult.caught m →
        translate_element_exc trE (HNode.text s) = Except.ok (HNode.text s))
      ∧ (∀ preR postR, trE (strip s) = TrResult.caught m →
          translate_children_exc trE pre = Except.ok preR →
          translate_children_exc trE post = Except.ok postR →
          translate_children_exc trE (pre ++ HNode.text s :: post)
            = Except.ok (preR ++ HNode.text s :: postR))
      ∧ ((∀ v e, trE v ≠ TrResult.escaping e) →
          translate_element_exc trE n
            = Except.ok (translate_element (collapseTr trE) n))
      ∧ (should_translate_text s = true →
          trE (strip s) = TrResult.escaping m →
          translate_element_exc trE (HNode.text s) = Except.error m
            ∧ translate_children_exc trE (HNode.text s :: post)
                = Except.error m)
      ∧ (∀ e, translate_html_carefully_exc trE (some n) html
            = Except.error e →
          translate_offline_html_try trE (some n) html = html)
      ∧ translate_html_carefully_exc trE none html
          = (match trE html with
              | TrResult.ok t => Except.ok t
              | TrResult.caught e => Except.error e
              | TrResult.escaping e => Except.error e)
      ∧ (tr s = none → onlineTranslateText tr s = s)
      ∧ online_translate_html_carefully tr none html
          = (match tr html with
              | some t => t
              | none => html) := by
  have hcaught : trE (strip s) = TrResult.caught m →
      translate_element_exc trE (HNode.text s) = Except.ok (HNode.text s) := by
    intro h
    by_cases hs : should_translate_text s
    · simp [translate_element_exc, hs, h]
    · simp [translate_element_exc, hs]
  refine ⟨hcaught, ?_, ?_, ?_, ?_, rfl, ?_, rfl⟩
  · intro preR postR h hpre hpost
    rw [translate_children_exc_append, hpre]
    simp only [translate_children_exc, hcaught h, hpost]
  · intro hne
    exact translate_element_exc_no_escape trE hne n
  · intro hs h
    have he : translate_element_exc trE (HNode.text s) = Except.error m := by
      simp [translate_element_exc, hs, h]
    refine ⟨he, ?_⟩
    simp only [translate_children_exc, he]
  · intro e h
    unfold translate_offline_html_try
    rw [h]
  · intro h
    simp [onlineTranslateText, h]

/-- Claim C5 witness at a concrete input. -/
theorem C5_amended_failure_policy_witness :
    translate_element_exc (fun _ => TrResult.caught ("ValueError".toList))
        (HNode.text ("ab".toList))
      = Except.ok (HNode.text ("ab".toList)) :=
  (C5_amended_failure_policy (fun _ => none)
    (fun _ => TrResult.caught ("ValueError".toList)) ("ab".toList)
    ("<x>".toList) ("ValueError".toList) (HNode.text ("ab".toList))
    [] []).1 rfl

/-- Claim C6 counterexample: on empty input the online runner prints an
error object and returns exit code one, not zero. -/
theorem C6_counterexample :
    (main_online envC6 [] ("en".toList)).2 = 1 ∧ (1 : Nat) ≠ 0 :=
  ⟨rfl, by decide⟩

/-- Claim C6 (amended): exceptions escaping translation are caught inside
translate_online and surfaced as an error field alongside the original
text; for nonempty input the online main prints the result object and
returns zero, while for empty input it prints a fixed error object and
returns one; the offline main catches any escaping exception and prints
an object whose only key is translated, returning zero. -/
theorem C6_amended_outer_boundary
    (envN : OnlineEnv) (envO : OfflineEnv) (input text target : Str)
    (is_html : Bool) (parsed : Option HNode) (iod crashes : Bool)
    (hne : input ≠ []) :
    (main_online envN input target).2 = 0
      ∧ (main_online envN input target).1
          = jsonOfResult (translate_online envN input target)
      ∧ (∀ e, (translate_online envN text target).error = some e
          → (translate_online envN text target).translated = text)
      ∧ main_online envN [] target
          = ([("error".toList, JVal.str ("No input provided".toList)),
              ("translated".toList, JVal.str [])], 1)
      ∧ (main_offline envO text target is_html parsed iod crashes).2 = 0
      ∧ (main_offline envO text target is_html parsed iod
            crashes).1.map Prod.fst
          = ["translated".toList] := by
  refine ⟨?_, ?_, ?_, ?_, rfl, rfl⟩
  · simp [main_online, hne]
  · simp [main_online, hne]
  · intro e he
    rcases translate_online_keeps_original_or_ok envN text target with h | h
    · exact h
    · rw [h] at he
      cases he
  · simp [main_online]

/-- Claim C6 witness at a concrete input. -/
theorem C6_amended_outer_boundary_witness :
    (main_online envC6 ("x".toList) ("en".toList)).2 = 0 :=
  (C6_amended_outer_boundary envC6
    { fakeMode := false, argosOk := false, detected := none, installed := [],
      downloadOk := false, installedAfter := [],
      getTranslation := fun _ _ => none }
    ("x".toList) ("y".toList) ("en".toList) false none false false
    (by decide)).1

/-- Claim C7: for the retryable error classes the online runner makes
exactly three attempts with backoff sleeps of one second then two
seconds; the loop never inspects an attempt beyond the third; and when
the final attempt also fails the error is surfaced alongside the original
text. -/
theorem C7_retry_policy
    (env : OnlineEnv) (text target : Str) (m0 m1 m2 : Str)
    (hlib : env.libOk = true) (hne : strip text ≠ [])
    (hdet : env.detected ≠ target) (hprov : env.providerOk = true)
    (h0 : env.att 0 = AttemptOutcome.tooManyRequests m0
        ∨ env.att 0 = AttemptOutcome.requestError m0)
    (h1 : env.att 1 = AttemptOutcome.tooManyRequests m1
        ∨ env.att 1 = AttemptOutcome.requestError m1)
    (h2 : env.att 2 = AttemptOutcome.tooManyRequests m2
        ∨ env.att 2 = AttemptOutcome.requestError m2) :
    (translate_online_run env text target).2
        = [retryDelaySec * 2 ^ 0, retryDelaySec * 2 ^ 1]
      ∧ (translate_online_run env text target).1.translated = text
      ∧ (∃ e, (translate_online_run env text target).1.error = some e)
      ∧ (∀ att2, (∀ j, j < maxRetries → att2 j = env.att j) →
          translate_online_run { env with att := att2 } text target
            = translate_online_run env text target) := by
  have hrun : translate_online_run env text target
      = attempt_loop text env.att 0 maxRetries := by
    unfold translate_online_run
    simp [hlib, hprov, hne, hdet]
  have hcongr : ∀ att2 : Nat → AttemptOutcome,
      (∀ j, j < maxRetries → att2 j = env.att j) →
      translate_online_run { env with att := att2 } text target
        = translate_online_run env text target := by
    intro att2 hagree
    have hrun2 : translate_online_run { env with att := att2 } text target
        = attempt_loop text att2 0 maxRetries := by
      unfold translate_online_run
      simp [hlib, hprov, hne, hdet]
    rw [hrun, hrun2]
    exact attempt_loop_congr text att2 env.att maxRetries 0
      (fun j _ hj => hagree j (by simpa using hj))
  refine ⟨?_, ?_, ?_, hcongr⟩
  · rw [hrun]
    rcases h0 with h0 | h0 <;> rcases h1 with h1 | h1 <;>
      rcases h2 with h2 | h2 <;>
      simp [attempt_loop, h0, h1, h2, maxRetries]
  · rw [hrun]
    rcases h0 with h0 | h0 <;> rcases h1 with h1 | h1 <;>
      rcases h2 with h2 | h2 <;>
      simp [attempt_loop, h0, h1, h2, maxRetries]
  · rw [hrun]
    rcases h0 with h0 | h0 <;> rcases h1 with h1 | h1 <;>
      rcases h2 with h2 | h2 <;>
      simp [attempt_loop, h0, h1, h2, maxRetries]

/-- Claim C7 witness at a concrete input. -/
theorem C7_retry_policy_witness :
    (translate_online_run
        { libOk := true, detected := "fr".toList, providerOk := true,
          providerErrMsg := [],
          att := fun _ => AttemptOutcome.tooManyRequests ("limit".toList) }
        ("bonjour".toList) ("en".toList)).2
      = [retryDelaySec * 2 ^ 0, retryDelaySec * 2 ^ 1] :=
  (C7_retry_policy
    { libOk := true, detected := "fr".toList, providerOk := true,
      providerErrMsg := [],
      att := fun _ => AttemptOutcome.tooManyRequests ("limit".toList) }
    ("bonjour".toList) ("en".toList)
    ("limit".toList) ("limit".toList) ("limit".toList)
    rfl (by decide) (by decide) rfl
    (Or.inl rfl) (Or.inl rfl) (Or.inl rfl)).1

/-- Claim C8: a detected af source is remapped to nl before any model
lookup, so the offline runner behaves exactly as if nl had been detected;
in particular, with target nl an input detected as af is returned
unchanged, whatever the translator lookup would return. -/
theorem C8_af_remap (env : OfflineEnv) (text target : Str)
    (is_html : Bool) (parsed : Option HNode) (iod : Bool)
    (hfake : env.fakeMode = false) :
    translate_offline { env with detected := some ("af".toList) } text
        target is_html parsed iod
      = translate_offline { env with detected := some ("nl".toList) } text
          target is_html parsed iod
    ∧ (∀ g, translate_offline
          { env with detected := some ("af".toList), getTranslation := g }
          text ("nl".toList) is_html parsed iod = text) := by
  constructor
  · unfold translate_offline
    simp only [hfake]
    simp
  · intro g
    unfold translate_offline
    simp only [hfake]
    simp

/-- Claim C8 witness at a concrete input. -/
theorem C8_af_remap_witness :
    translate_offline
        { fakeMode := false, argosOk := true, detected := some ("af".toList),
          installed := ["nl".toList], downloadOk := false,
          installedAfter := [], getTranslation := fun _ _ => none }
        ("goeie".toList) ("nl".toList) false none true = "goeie".toList := by
  have h := C8_af_remap
    { fakeMode := false, argosOk := true, detected := some ("af".toList),
      installed := ["nl".toList], downloadOk := false,
      installedAfter := [], getTranslation := fun _ _ => none }
    ("goeie".toList) ("nl".toList) false none true rfl
  exact h.2 (fun _ _ => none)

/-- Claim C9: on the test input with the uppercasing mock translator,
Spanish detected and English targeted, the offline runner preserves the
markup, translates the two word nodes with the space after hola kept, and
leaves the too-short exclamation node unchanged. -/
theorem C9_html_example :
    render tree9 = "<p>hola <b>mundo</b>!</p>".toList
      ∧ translate_offline env9 ("<p>hola <b>mundo</b>!</p>".toList)
          ("en".toList) true (some tree9) false
        = "<p>HOLA <b>MUNDO</b>!</p>".toList :=
  ⟨rfl, rfl⟩

/-- Claim C10: the offline runner always prints an object whose only key
is translated, never an error key, and always returns exit code zero, for
every environment, input and failure mode. -/
theorem C10_offline_output_shape (env : OfflineEnv) (data target : Str)
    (is_html : Bool) (parsed : Option HNode) (iod crashes : Bool) :
    (main_offline env data target is_html parsed iod crashes).1.map Prod.fst
        = ["translated".toList]
      ∧ (main_offline env data target is_html parsed iod crashes).1
          = [("translated".toList, JVal.str
              (if crashes then data
               else translate_offline env data target is_html parsed iod))]
      ∧ (main_offline env data target is_html parsed iod crashes).2 = 0 :=
  ⟨rfl, rfl, rfl⟩

end TransRunner
